import Mathlib

/-!
Verification of the analysis-and-visualization dispatch engine of the
contagious-diseases exploratory-data-analysis tool (`dataset.py`).

The source is a pandas/streamlit script.  We embed the decision logic:

* CSV loading types each column by pandas dtype inference: a non-empty
  column whose non-missing cells all parse as real numbers gets the
  `number` dtype, every other column gets `object`.  `read_csv` is called
  without `parse_dates`, so it never produces a `datetime` dtype; the
  dtype is still part of the model because the script branches on it
  (`select_dtypes(include=['datetime'])`).
* Missing cells (`NaN`) are modelled as `none`; numeric values as `ℚ`.
* `quantile` is the pandas linear-interpolation quantile, computed on the
  sorted non-missing values.
* `value_counts` counts non-missing values and sorts descending by count;
  the underlying hash table yields keys in first-occurrence order and the
  sort is modelled as stable.
* Operations that can raise a Python exception return `Except`; an
  exception caught by the script's `try/except` is converted to a message
  inside `create_visualization` and never escapes.
-/

namespace Disease

/-- Pandas dtypes distinguished by the script: `number` (int64/float64),
`object` (strings), `datetime`, and `bool`, which `read_csv` infers for a
fully populated column of True/False tokens. -/
inductive Dtype
  | number
  | object
  | datetime
  | bool
deriving DecidableEq

/-- The three column classes of the specification, plus `Boolean`: the
class of the bool dtype, which the script's `select_dtypes` calls exclude
from both chart classes even though the analysis dispatch treats it as
numeric. -/
inductive ColType
  | Numeric
  | Categorical
  | Datetime
  | Boolean
deriving DecidableEq

/-- Value of a digit string read left to right. -/
def natOfDigits (ds : List Char) : ℕ :=
  ds.foldl (fun n c => 10 * n + (c.toNat - '0'.toNat)) 0

/-- Strip an optional leading sign, returning the sign as a rational. -/
def parseSign (cs : List Char) : ℚ × List Char :=
  match cs with
  | '-' :: t => (-1, t)
  | '+' :: t => (1, t)
  | t => (1, t)

/-- Parse the exponent part that follows the mantissa: either nothing, or
an `e`/`E` marker followed by an optionally signed digit string. -/
def parseExp (cs : List Char) : Option ℤ :=
  match cs with
  | [] => some 0
  | _ :: t =>
    let st : ℤ × List Char :=
      match t with
      | '-' :: u => (-1, u)
      | '+' :: u => (1, u)
      | u => (1, u)
    if !st.2.isEmpty && st.2.all Char.isDigit then some (st.1 * natOfDigits st.2)
    else none

/-- Model of the numeric-literal recognition performed by pandas
`read_csv` on a CSV cell: optional sign, digits with at most one decimal
point (at least one digit overall), optional exponent. -/
def parseNumber (s : String) : Option ℚ :=
  let sc := parseSign s.toList
  let mant := sc.2.takeWhile (fun c => !(c == 'e' || c == 'E'))
  let erest := sc.2.dropWhile (fun c => !(c == 'e' || c == 'E'))
  let ip := mant.takeWhile (fun c => c != '.')
  let frest := mant.dropWhile (fun c => c != '.')
  let fp := frest.drop 1
  match parseExp erest with
  | none => none
  | some e =>
    if ip.all Char.isDigit && fp.all Char.isDigit && !(ip.isEmpty && fp.isEmpty) then
      let m : ℚ := (natOfDigits ip : ℚ) + (natOfDigits fp : ℚ) / (10 : ℚ) ^ fp.length
      let scale : ℚ := if 0 ≤ e then (10 : ℚ) ^ e.toNat else 1 / (10 : ℚ) ^ (-e).toNat
      some (sc.1 * m * scale)
    else none

/-- Modelled from the spec: "parse as dates/timestamps" (§4.1), read as an
ISO `YYYY-MM-DD` date.  Used only for the spec side of the refinement
comparison; the script itself never parses dates. -/
def specIsDateLike (s : String) : Bool :=
  match s.toList with
  | [y1, y2, y3, y4, h1, m1, m2, h2, d1, d2] =>
    y1.isDigit && y2.isDigit && y3.isDigit && y4.isDigit && h1 == '-' &&
    m1.isDigit && m2.isDigit && h2 == '-' && d1.isDigit && d2.isDigit
  | _ => false

/-- Modelled from the spec (§4.1): a column is Datetime if all non-missing
values parse as dates, Numeric if all non-missing values parse as real
numbers, otherwise Categorical. -/
def specClassify (raw : List (Option String)) : ColType :=
  let nm := raw.filterMap id
  if !nm.isEmpty && nm.all specIsDateLike then .Datetime
  else if nm.all (fun s => (parseNumber s).isSome) then .Numeric
  else .Categorical

/-- The boolean tokens the pandas `read_csv` parser recognizes when
inferring a bool column. -/
def isBoolToken (s : String) : Bool :=
  s == "True" || s == "TRUE" || s == "true" ||
  s == "False" || s == "FALSE" || s == "false"

/-- Pandas `read_csv` dtype inference for one column of raw cells: a
column with no rows is `object`; a non-empty column whose non-missing
cells all parse as numbers is `number` (an entirely missing column is
all-NaN float64, hence `number`); a fully populated column of True/False
tokens is `bool` (a missing cell forces `object`, since a numpy bool
array cannot hold NaN); anything else is `object`.  `read_csv` is called
without `parse_dates`, so `datetime` is never inferred. -/
def inferDtype (raw : List (Option String)) : Dtype :=
  if raw.isEmpty then .object
  else if (raw.filterMap id).all (fun s => (parseNumber s).isSome) then .number
  else if raw.all (fun o =>
    match o with
    | some s => isBoolToken s
    | none => false) then .bool
  else .object

/-- The column class each dtype is treated as by the script's dispatch:
`select_dtypes(include='number')` columns are Numeric,
`select_dtypes(include='object')` columns are Categorical,
`select_dtypes(include=['datetime'])` columns are Datetime, and a bool
column matches none of those three selections. -/
def columnClass : Dtype → ColType
  | .number => .Numeric
  | .object => .Categorical
  | .datetime => .Datetime
  | .bool => .Boolean

/-- A loaded column: its header name, its raw cells (`none` = missing),
and the dtype carried by the dataframe. -/
structure Column where
  name : String
  raw : List (Option String)
  dtype : Dtype
deriving DecidableEq

/-- A loaded dataframe: columns plus the row count reported by `len(df)`. -/
structure Table where
  cols : List Column
  nrows : ℕ
deriving DecidableEq

/-- The class the script assigns to a column, determined by its dtype. -/
def classifyColumn (c : Column) : ColType := columnClass c.dtype

/-- All columns have the table's row count (always true of a dataframe). -/
def wellFormed (t : Table) : Prop := ∀ c ∈ t.cols, c.raw.length = t.nrows

instance (t : Table) : Decidable (wellFormed t) :=
  inferInstanceAs (Decidable (∀ c ∈ t.cols, c.raw.length = t.nrows))

/-- The table came from `pd.read_csv`: columns are well formed and each
dtype is the one `read_csv` infers from the raw cells. -/
def loadedFromCsv (t : Table) : Prop :=
  wellFormed t ∧ ∀ c ∈ t.cols, c.dtype = inferDtype c.raw

instance (t : Table) : Decidable (loadedFromCsv t) :=
  inferInstanceAs (Decidable (_ ∧ ∀ c ∈ t.cols, c.dtype = inferDtype c.raw))

/-- The numeric view of a column: each cell parsed as a number, missing or
unparsable cells as `none` (NaN). -/
def colVals (c : Column) : List (Option ℚ) :=
  c.raw.map (fun o => o.bind parseNumber)

/-- Pandas linear-interpolation quantile on an already sorted list of
values: for `h = p*(n-1)`, interpolate between the values at positions
`⌊h⌋` and `⌊h⌋+1`.  `none` on an empty list (pandas returns NaN). -/
def quantileSorted (xs : List ℚ) (p : ℚ) : Option ℚ :=
  if xs.isEmpty then none
  else
    let n := xs.length
    let h : ℚ := p * ((n : ℚ) - 1)
    let i : ℕ := ⌊h⌋₊
    if i + 1 < n then some (xs.getD i 0 + (h - (i : ℚ)) * (xs.getD (i + 1) 0 - xs.getD i 0))
    else some (xs.getD (n - 1) 0)

/-- `Series.quantile(p)`: sort the non-missing values and interpolate. -/
def quantile (col : List (Option ℚ)) (p : ℚ) : Option ℚ :=
  quantileSorted (List.insertionSort (· ≤ ·) (col.filterMap id)) p

/-- `q1 = quantile(0.25)` and `q3 = quantile(0.75)` as computed in the
outlier-detection block; `none` when the column has no values. -/
def quartiles (col : List (Option ℚ)) : Option (ℚ × ℚ) :=
  match quantile col (1/4), quantile col (3/4) with
  | some q1, some q3 => some (q1, q3)
  | _, _ => none

/-- The row filter of the outlier block, with the IQR multiplier `m`
(the script hard-codes `m = 1.5`): value strictly below `q1 - m*iqr` or
strictly above `q3 + m*iqr`. -/
def isOutlierW (m q1 q3 x : ℚ) : Bool :=
  decide (x < q1 - m * (q3 - q1)) || decide (q3 + m * (q3 - q1) < x)

/-- Number of rows the outlier filter keeps, at multiplier `m`.  A NaN
cell satisfies neither strict comparison, so it is never counted; if the
quantiles are NaN (no values) every comparison is false and the count
is 0. -/
def outlierCountWith (m : ℚ) (col : List (Option ℚ)) : ℕ :=
  match quartiles col with
  | some (q1, q3) =>
    col.countP (fun v =>
      match v with
      | some x => isOutlierW m q1 q3 x
      | none => false)
  | none => 0

/-- `len(outliers)` with the script's multiplier 1.5. -/
def outlierCount (col : List (Option ℚ)) : ℕ := outlierCountWith (3/2) col

/-- Errors in scope for the analysis operations.  `emptyColumn` is the
`EmptyColumnError` of the specification's taxonomy — it is included so
that its absence can be stated; the script never raises it.
`zeroDivision` models Python's `ZeroDivisionError`, `keyError` models
`KeyError`. -/
inductive AnalysisError
  | emptyColumn
  | zeroDivision
  | keyError
deriving DecidableEq

/-- What the outlier block reports: the row count and the fraction
`len(outliers) / len(df)`. -/
structure OutlierReport where
  count : ℕ
  fraction : ℚ
deriving DecidableEq

/-- The outlier-detection block.  Dividing by `len(df) = 0` raises
`ZeroDivisionError`; otherwise it reports count and fraction. -/
def detect_outliers (col : List (Option ℚ)) (nrows : ℕ) : Except AnalysisError OutlierReport :=
  if nrows = 0 then .error .zeroDivision
  else .ok ⟨outlierCount col, (outlierCount col : ℚ) / (nrows : ℚ)⟩

/-- `Series.mean()` over the non-missing values; NaN when there are none. -/
def colMean (col : List (Option ℚ)) : Option ℚ :=
  let v := col.filterMap id
  if v.isEmpty then none else some (v.sum / (v.length : ℚ))

/-- `Series.median()` is the linear-interpolation quantile at 0.5. -/
def colMedian (col : List (Option ℚ)) : Option ℚ := quantile col (1/2)

/-- `Series.var()`: sample variance (ddof = 1) over the non-missing
values; NaN with fewer than two values. -/
def colVar (col : List (Option ℚ)) : Option ℚ :=
  let v := col.filterMap id
  if v.length < 2 then none
  else
    let m := v.sum / (v.length : ℚ)
    some ((v.map (fun x => (x - m) ^ 2)).sum / ((v.length : ℚ) - 1))

/-- The displayed numerical statistics.  The script also displays
`std = √var`, skewness and kurtosis — NaN-skipping moments whose values
are irrational; the rational model carries mean, median and variance,
which suffices to observe whether the block produces NaN or fails. -/
structure NumericSummary where
  mean : Option ℚ
  median : Option ℚ
  variance : Option ℚ
deriving DecidableEq

/-- The metrics block of the numerical analysis branch. -/
def summarizeNumeric (col : List (Option ℚ)) : NumericSummary :=
  ⟨colMean col, colMedian col, colVar col⟩

/-- Distinct values of a list in order of first occurrence (the key order
produced by the pandas value-counting hash table). -/
def firstOccs : List String → List String
  | [] => []
  | x :: xs => x :: firstOccs (xs.filter (fun y => y != x))
termination_by l => l.length
decreasing_by
  simp only [List.length_cons]
  exact Nat.lt_succ_of_le (List.length_filter_le _ _)

/-- Descending-count order on frequency entries. -/
def countOrder (a b : String × ℕ) : Prop := b.2 ≤ a.2

instance : DecidableRel countOrder :=
  fun a b => inferInstanceAs (Decidable (b.2 ≤ a.2))

instance : IsTotal (String × ℕ) countOrder := ⟨fun a b => le_total b.2 a.2⟩

instance : IsTrans (String × ℕ) countOrder :=
  ⟨fun _ _ _ hab hbc => le_trans hbc hab⟩

/-- `Series.value_counts()` on the non-missing values: one entry per
distinct value with its count, sorted by descending count; the sort is
stable over the hash table's first-occurrence key order. -/
def value_counts (xs : List String) : List (String × ℕ) :=
  List.insertionSort countOrder ((firstOccs xs).map (fun v => (v, xs.count v)))

/-- `pd.api.types.is_numeric_dtype`: true for the numeric dtypes and also
for `bool`, unlike `select_dtypes(include='number')`, which excludes bool
columns. -/
def is_numeric_dtype (d : Dtype) : Bool :=
  match d with
  | .number => true
  | .bool => true
  | _ => false

/-- Output of the per-column Advanced Analysis section: numeric summary
plus outlier report, or frequency table (also drawn as a pie chart). -/
inductive AnalysisOut
  | numeric (s : NumericSummary) (r : OutlierReport)
  | categorical (freq : List (String × ℕ))
deriving DecidableEq

/-- The Advanced Analysis section for the selected column: a binary
dispatch on `is_numeric_dtype` — numeric statistics and outliers for
`number` dtype, `value_counts` plus pie chart for every other dtype. -/
def analysis_col (c : Column) (nrows : ℕ) : Except AnalysisError AnalysisOut :=
  if is_numeric_dtype c.dtype then
    match detect_outliers (colVals c) nrows with
    | .error e => .error e
    | .ok r => .ok (.numeric (summarizeNumeric (colVals c)) r)
  else .ok (.categorical (value_counts (c.raw.filterMap id)))

/-- The seven chart kinds of the `graph_types` dictionary. -/
inductive GraphType
  | bar
  | line
  | histogram
  | scatter
  | box
  | pie
  | heatmap
deriving DecidableEq

/-- The `graph_types` dictionary: the tag the script associates to each
chart kind. -/
def graph_types : GraphType → String
  | .bar => "categorical"
  | .line => "numerical"
  | .histogram => "numerical"
  | .scatter => "numerical"
  | .box => "numerical"
  | .pie => "categorical"
  | .heatmap => "correlation"

/-- `df.select_dtypes(include='object').columns`. -/
def selectCategorical (t : Table) : List Column :=
  t.cols.filter (fun c =>
    match c.dtype with
    | .object => true
    | _ => false)

/-- `df.select_dtypes(include='number').columns`. -/
def selectNumerical (t : Table) : List Column :=
  t.cols.filter (fun c =>
    match c.dtype with
    | .number => true
    | _ => false)

/-- `df.select_dtypes(include=['datetime']).columns`. -/
def date_cols (t : Table) : List Column :=
  t.cols.filter (fun c =>
    match c.dtype with
    | .datetime => true
    | _ => false)

/-- Visualization-level failures surfaced to the user: the spec's
`NoEligibleColumnsError` (empty selectbox, the seaborn call raises and the
`except` block shows the message) and `InsufficientColumnsError` (the
heatmap branch's explicit warning). -/
inductive VizError
  | noEligibleColumns
  | insufficientColumns
deriving DecidableEq

/-- The column options each chart kind's selectboxes offer, exactly as the
per-branch `select_dtypes` calls in `create_visualization`. -/
def optionCols (g : GraphType) (t : Table) : List Column :=
  match g with
  | .bar => selectCategorical t
  | .pie => selectCategorical t
  | .line => selectNumerical t
  | .histogram => selectNumerical t
  | .scatter => selectNumerical t
  | .box => selectNumerical t
  | .heatmap => selectNumerical t

/-- Column selection for a chart kind: with no eligible columns the
selectbox yields `None`, the plotting call raises, and the failure is
surfaced (`NoEligibleColumnsError`); otherwise the eligible list. -/
def selectChartColumns (g : GraphType) (t : Table) : Except VizError (List Column) :=
  if (optionCols g t).isEmpty then .error .noEligibleColumns
  else .ok (optionCols g t)

/-- Outcome of `create_visualization`: either a chart over the chosen
data, or a user-facing message.  The `try/except` wrapper converts every
raised error into a message, so the function is total. -/
inductive VizOutcome
  | chart (g : GraphType) (data : List Column)
  | errorMessage (e : VizError)
deriving DecidableEq

/-- `create_visualization`: the heatmap branch explicitly warns when the
table has fewer than 2 numeric columns; every other branch selects its
eligible columns and plots them, with failures caught at the boundary and
converted to messages. -/
def create_visualization (g : GraphType) (t : Table) : VizOutcome :=
  match g with
  | .heatmap =>
    if (selectNumerical t).length < 2 then .errorMessage .insufficientColumns
    else .chart .heatmap (selectNumerical t)
  | _ =>
    match selectChartColumns g t with
    | .error e => .errorMessage e
    | .ok cs => .chart g cs

/-- Modelled from the spec (§4.3 table): the required type class of each
chart kind. -/
def specRequiredType : GraphType → ColType
  | .bar => .Categorical
  | .pie => .Categorical
  | .line => .Numeric
  | .histogram => .Numeric
  | .scatter => .Numeric
  | .box => .Numeric
  | .heatmap => .Numeric

/-- Rows where both series have a value — the pairwise-complete
observations pandas `DataFrame.corr` uses for one entry. -/
def pairedVals (x y : List (Option ℚ)) : List (ℚ × ℚ) :=
  (x.zip y).filterMap (fun p =>
    match p with
    | (some a, some b) => some (a, b)
    | _ => none)

/-- One entry of the Pearson correlation matrix, in exact arithmetic,
represented as the pair (numerator, squared denominator): the rendered
coefficient is `num / √den2` (NaN when `den2 = 0`, e.g. with no paired
observations). -/
def corrRep (x y : List (Option ℚ)) : ℚ × ℚ :=
  let ps := pairedVals x y
  let n : ℚ := (ps.length : ℚ)
  let ma := (ps.map Prod.fst).sum / n
  let mb := (ps.map Prod.snd).sum / n
  ((ps.map (fun p => (p.1 - ma) * (p.2 - mb))).sum,
   (ps.map (fun p => (p.1 - ma) ^ 2)).sum * (ps.map (fun p => (p.2 - mb) ^ 2)).sum)

/-- `numeric_df.corr()`: the matrix of pairwise Pearson entries over the
given columns. -/
def corrMatrix (cols : List Column) : List (List (ℚ × ℚ)) :=
  cols.map (fun a => cols.map (fun b => corrRep (colVals a) (colVals b)))

/-- The Time Series Analysis section: skipped unless a datetime column
exists; with a datetime column but no numeric column the metric selectbox
yields `None` and indexing the dataframe with it raises `KeyError`.
Resampling a numeric metric over a valid datetime index itself raises
nothing; the resampled series' values are outside the claims' scope. -/
def resampleSection (t : Table) : Except AnalysisError Unit :=
  if (date_cols t).isEmpty then .ok ()
  else if (selectNumerical t).isEmpty then .error .keyError
  else .ok ()

/-- One full pass of the script after a table is loaded: the selected
visualization (errors already converted to messages inside), the Advanced
Analysis of the selected column, and the time-series section.  The
analysis and resample sections are not wrapped in `try/except`, so their
errors propagate out of `runSession`. -/
def runSession (t : Table) (g : GraphType) (colIdx : ℕ) :
    Except AnalysisError (VizOutcome × AnalysisOut) :=
  let viz := create_visualization g t
  match analysis_col (t.cols.getD colIdx ⟨"", [], .object⟩) t.nrows with
  | .error e => .error e
  | .ok a =>
    match resampleSection t with
    | .error e => .error e
    | .ok _ => .ok (viz, a)

/-- The worked example column `cases = [1,2,3,4,100]`. -/
def casesCol : List (Option ℚ) := [some 1, some 2, some 3, some 4, some 100]

/-- The `cases` column as loaded from CSV text. -/
def casesColumn : Column :=
  ⟨"cases", [some "1", some "2", some "3", some "4", some "100"], .number⟩

/-- A second numeric column, for the heatmap fixtures. -/
def weekColumn : Column :=
  ⟨"week", [some "1", some "2", some "3", some "4", some "5"], .number⟩

/-- The categorical example column `region = [A,A,B,C,A]`. -/
def regionColumn : Column :=
  ⟨"region", [some "A", some "A", some "B", some "C", some "A"], .object⟩

/-- A table whose only column is categorical. -/
def oneCatTable : Table := ⟨[regionColumn], 5⟩

/-- A table with exactly one numeric column. -/
def oneNumTable : Table := ⟨[casesColumn], 5⟩

/-- A table with two numeric columns. -/
def twoNumTable : Table := ⟨[casesColumn, weekColumn], 5⟩

/-- A column of date strings, with the dtype `read_csv` gives it. -/
def dateRaw : List (Option String) := [some "2020-01-01", some "2020-02-01"]

/-- The date-string column as loaded by `read_csv`. -/
def dateColumn : Column := ⟨"date", dateRaw, inferDtype dateRaw⟩

/-- A numeric-dtype column whose cells are all missing (all-NaN float64). -/
def allMissingColumn : Column := ⟨"empty", [none, none], .number⟩

/-- A True/False column with the bool dtype `read_csv` infers for it. -/
def boolColumn : Column := ⟨"flag", [some "True", some "False"], .bool⟩

end Disease

namespace Disease

/- ### Helper lemmas about sorted lists and the interpolation quantile -/

lemma getD_sorted_mono {xs : List ℚ} (hs : List.Sorted (· ≤ ·) xs) {i j : ℕ}
    (hij : i ≤ j) (hj : j < xs.length) : xs.getD i 0 ≤ xs.getD j 0 := by
  rcases Nat.eq_or_lt_of_le hij with rfl | hlt
  · exact le_refl _
  · have hi : i < xs.length := lt_trans hlt hj
    rw [List.getD_eq_getElem _ _ hi, List.getD_eq_getElem _ _ hj]
    have h := List.pairwise_iff_get.mp hs ⟨i, hi⟩ ⟨j, hj⟩ hlt
    simpa using h

lemma quantileSorted_mono {xs : List ℚ} (hs : List.Sorted (· ≤ ·) xs)
    {p q : ℚ} (hp0 : 0 ≤ p) (hpq : p ≤ q) (hq1 : q ≤ 1)
    {a b : ℚ} (ha : quantileSorted xs p = some a) (hb : quantileSorted xs q = some b) :
    a ≤ b := by
  by_cases hemp : xs.isEmpty
  · simp [quantileSorted, hemp] at ha
  · have hne : xs ≠ [] := by simpa [List.isEmpty_iff] using hemp
    have hn1 : 0 < xs.length := List.length_pos.mpr hne
    have hq0 : 0 ≤ q := le_trans hp0 hpq
    have hcast : (0 : ℚ) ≤ (xs.length : ℚ) - 1 := by
      have : (1 : ℚ) ≤ (xs.length : ℚ) := by exact_mod_cast hn1
      linarith
    have hple : p * ((xs.length : ℚ) - 1) ≤ q * ((xs.length : ℚ) - 1) :=
      mul_le_mul_of_nonneg_right hpq hcast
    have hp'0 : 0 ≤ p * ((xs.length : ℚ) - 1) := mul_nonneg hp0 hcast
    have hq'0 : 0 ≤ q * ((xs.length : ℚ) - 1) := mul_nonneg hq0 hcast
    have hqle : q * ((xs.length : ℚ) - 1) ≤ (xs.length : ℚ) - 1 := by
      have := mul_le_mul_of_nonneg_right hq1 hcast
      simpa using this
    set hp' := p * ((xs.length : ℚ) - 1) with hhp
    set hq' := q * ((xs.length : ℚ) - 1) with hhq
    set i1 := ⌊hp'⌋₊ with hi1
    set i2 := ⌊hq'⌋₊ with hi2
    have hi12 : i1 ≤ i2 := Nat.floor_le_floor hple
    have hi2n : i2 ≤ xs.length - 1 := by
      have h2 : (i2 : ℚ) ≤ (xs.length : ℚ) - 1 := le_trans (Nat.floor_le hq'0) hqle
      have h3 : ((xs.length - 1 : ℕ) : ℚ) = (xs.length : ℚ) - 1 := by
        rw [Nat.cast_sub hn1]; simp
      rw [← h3] at h2
      exact_mod_cast h2
    have hg1lo : (i1 : ℚ) ≤ hp' := Nat.floor_le hp'0
    have hg1hi : hp' < (i1 : ℚ) + 1 := Nat.lt_floor_add_one hp'
    have hg2lo : (i2 : ℚ) ≤ hq' := Nat.floor_le hq'0
    rw [quantileSorted, if_neg (by simp [hemp])] at ha hb
    simp only [← hhp, ← hhq, ← hi1, ← hi2] at ha hb
    by_cases h1 : i1 + 1 < xs.length
    · rw [if_pos h1] at ha
      have hA1B1 : xs.getD i1 0 ≤ xs.getD (i1 + 1) 0 :=
        getD_sorted_mono hs (Nat.le_succ i1) h1
      by_cases h2 : i2 + 1 < xs.length
      · rw [if_pos h2] at hb
        have hA2B2 : xs.getD i2 0 ≤ xs.getD (i2 + 1) 0 :=
          getD_sorted_mono hs (Nat.le_succ i2) h2
        rcases Nat.eq_or_lt_of_le hi12 with heq | hlt
        · -- same interpolation cell
          rw [heq] at ha
          obtain rfl : _ = a := Option.some_injective _ ha
          obtain rfl : _ = b := Option.some_injective _ hb
          have hd : 0 ≤ xs.getD (i2 + 1) 0 - xs.getD i2 0 := sub_nonneg.mpr hA2B2
          have hgg : hp' - (i2 : ℚ) ≤ hq' - (i2 : ℚ) := by linarith
          have hmul := mul_le_mul_of_nonneg_right hgg hd
          linarith
        · -- strictly later cell
          obtain rfl : _ = a := Option.some_injective _ ha
          obtain rfl : _ = b := Option.some_injective _ hb
          have hstep : xs.getD (i1 + 1) 0 ≤ xs.getD i2 0 :=
            getD_sorted_mono hs hlt (lt_trans (Nat.lt_succ_self i2) h2)
          have hup : xs.getD i1 0 + (hp' - (i1 : ℚ)) * (xs.getD (i1 + 1) 0 - xs.getD i1 0) ≤
              xs.getD (i1 + 1) 0 := by nlinarith
          have hlo : xs.getD i2 0 ≤
              xs.getD i2 0 + (hq' - (i2 : ℚ)) * (xs.getD (i2 + 1) 0 - xs.getD i2 0) := by
            nlinarith
          linarith
      · rw [if_neg h2] at hb
        obtain rfl : _ = a := Option.some_injective _ ha
        obtain rfl : _ = b := Option.some_injective _ hb
        have hi1n : i1 + 1 ≤ xs.length - 1 := by omega
        have hstep : xs.getD (i1 + 1) 0 ≤ xs.getD (xs.length - 1) 0 :=
          getD_sorted_mono hs hi1n (by omega)
        have hup : xs.getD i1 0 + (hp' - (i1 : ℚ)) * (xs.getD (i1 + 1) 0 - xs.getD i1 0) ≤
            xs.getD (i1 + 1) 0 := by nlinarith
        linarith
    · rw [if_neg h1] at ha
      have hi1n : i1 = xs.length - 1 := by
        have : (i1 : ℚ) ≤ (xs.length : ℚ) - 1 := le_trans hg1lo (le_trans hple hqle)
        have h3 : ((xs.length - 1 : ℕ) : ℚ) = (xs.length : ℚ) - 1 := by
          rw [Nat.cast_sub hn1]; simp
        rw [← h3] at this
        have := (Nat.cast_le (α := ℚ)).mp this
        omega
      have h2 : ¬ (i2 + 1 < xs.length) := by omega
      rw [if_neg h2] at hb
      obtain rfl : _ = a := Option.some_injective _ ha
      obtain rfl : _ = b := Option.some_injective _ hb
      exact le_refl _

lemma quantile_mono (col : List (Option ℚ)) {p q : ℚ} (hp0 : 0 ≤ p) (hpq : p ≤ q)
    (hq1 : q ≤ 1) {a b : ℚ} (ha : quantile col p = some a) (hb : quantile col q = some b) :
    a ≤ b :=
  quantileSorted_mono (List.sorted_insertionSort _ _) hp0 hpq hq1 ha hb

lemma quartiles_le {col : List (Option ℚ)} {q1 q3 : ℚ}
    (h : quartiles col = some (q1, q3)) : q1 ≤ q3 := by
  unfold quartiles at h
  cases h14 : quantile col (1/4) with
  | none => rw [h14] at h; simp at h
  | some a =>
    cases h34 : quantile col (3/4) with
    | none => rw [h14, h34] at h; simp at h
    | some b =>
      rw [h14, h34] at h
      obtain ⟨rfl, rfl⟩ : a = q1 ∧ b = q3 := by simpa using h
      exact quantile_mono col (by norm_num) (by norm_num) (by norm_num) h14 h34

end Disease

namespace Disease

/-- C2: for the numeric column `cases = [1,2,3,4,100]`, the
linear-interpolation quantiles are Q1 = 2 and Q3 = 4, the outlier bounds
are [-1, 7], and `detect_outliers` reports 1 outlier (the value 100) with
fraction 1/5 = 0.20 of the total rows. -/
theorem c2_outlier_example :
    quartiles casesCol = some (2, 4) ∧
    (∀ x : ℚ, isOutlierW (3/2) 2 4 x = (decide (x < -1) || decide (7 < x))) ∧
    detect_outliers casesCol 5 = .ok ⟨1, 1/5⟩ := by
  refine ⟨?_, ?_, ?_⟩
  · norm_num [quartiles, quantile, quantileSorted, casesCol, List.insertionSort,
      List.orderedInsert]
  · intro x
    have h1 : (2 : ℚ) - 3/2 * (4 - 2) = -1 := by norm_num
    have h2 : (4 : ℚ) + 3/2 * (4 - 2) = 7 := by norm_num
    simp only [isOutlierW, h1, h2]
  · norm_num [detect_outliers, outlierCount, outlierCountWith, quartiles, quantile,
      quantileSorted, casesCol, List.insertionSort, List.orderedInsert, isOutlierW,
      List.countP_cons, List.countP_nil]

/-- C4: for every column and IQR multipliers m1 ≤ m2, the outlier count at
multiplier m2 is at most the count at m1: the count is monotonically
non-decreasing as the multiplier decreases. -/
theorem c4_outlier_monotone (col : List (Option ℚ)) {m1 m2 : ℚ} (h : m1 ≤ m2) :
    outlierCountWith m2 col ≤ outlierCountWith m1 col := by
  unfold outlierCountWith
  cases hq : quartiles col with
  | none => exact le_refl _
  | some pair =>
    obtain ⟨q1, q3⟩ := pair
    have hle : q1 ≤ q3 := quartiles_le hq
    apply List.countP_mono_left
    intro v _ hv
    cases v with
    | none => simp at hv
    | some x =>
      simp only [isOutlierW, Bool.or_eq_true, decide_eq_true_eq] at hv ⊢
      have hiqr : (0 : ℚ) ≤ q3 - q1 := by linarith
      have hm := mul_le_mul_of_nonneg_right h hiqr
      rcases hv with hlt | hgt
      · left; linarith
      · right; linarith

/-- Witness for C4 at the example column, with multipliers 1 ≤ 3/2. -/
theorem c4_witness :
    outlierCountWith 1 casesCol = 1 ∧
    outlierCountWith (3/2) casesCol ≤ outlierCountWith 1 casesCol := by
  constructor
  · norm_num [outlierCountWith, quartiles, quantile, quantileSorted, casesCol,
      List.insertionSort, List.orderedInsert, isOutlierW, List.countP_cons,
      List.countP_nil]
  · exact c4_outlier_monotone casesCol (by norm_num)

/-- C9: the outlier membership test of `detect_outliers` uses strict
inequalities: a value is counted iff it is strictly below the lower bound
or strictly above the upper bound, and a value exactly equal to either
bound is not counted; the count is exactly the number of cells passing
that test. -/
theorem c9_strict_inequalities (col : List (Option ℚ)) {q1 q3 : ℚ}
    (h : quartiles col = some (q1, q3)) (x : ℚ) :
    (isOutlierW (3/2) q1 q3 x = true ↔
      (x < q1 - (3/2) * (q3 - q1) ∨ q3 + (3/2) * (q3 - q1) < x)) ∧
    ((x = q1 - (3/2) * (q3 - q1) ∨ x = q3 + (3/2) * (q3 - q1)) →
      isOutlierW (3/2) q1 q3 x = false) ∧
    outlierCount col = col.countP (fun v =>
      match v with
      | some y => isOutlierW (3/2) q1 q3 y
      | none => false) := by
  have hle := quartiles_le h
  refine ⟨by simp [isOutlierW], ?_, ?_⟩
  · rintro (rfl | rfl) <;>
      simp only [isOutlierW, Bool.or_eq_false_iff, decide_eq_false_iff_not, not_lt] <;>
      constructor <;> linarith
  · unfold outlierCount outlierCountWith
    rw [h]

/-- Witness for C9 at the example column: the lower bound -1 itself is not
counted as an outlier. -/
theorem c9_witness : isOutlierW (3/2) 2 4 (-1) = false := by
  have hq : quartiles casesCol = some (2, 4) := by
    norm_num [quartiles, quantile, quantileSorted, casesCol, List.insertionSort,
      List.orderedInsert]
  exact (c9_strict_inequalities casesCol hq (-1)).2.1 (Or.inl (by norm_num))

end Disease

namespace Disease

lemma inferDtype_ne_datetime (raw : List (Option String)) : inferDtype raw ≠ .datetime := by
  unfold inferDtype
  split_ifs <;> simp

lemma bool_dtype_asymmetric (c : Column) (hb : c.dtype = Dtype.bool) :
    is_numeric_dtype c.dtype = true ∧
    ∀ t : Table, c ∉ selectNumerical t ∧ c ∉ selectCategorical t ∧ c ∉ date_cols t := by
  refine ⟨by simp [hb, is_numeric_dtype], ?_⟩
  intro t
  refine ⟨?_, ?_, ?_⟩
  all_goals
    intro hmem
    simp only [selectNumerical, selectCategorical, date_cols] at hmem
    have hp := (List.mem_filter.mp hmem).2
    simp only [hb] at hp
    exact absurd hp (by decide)

/-- C1 counterexample: two reachable columns break the spec's three-way
parse rule.  A column of ISO date strings parses entirely as dates, so the
rule classifies it Datetime, but the script types it `object` and treats
it as Categorical.  A column of True/False tokens parses as neither dates
nor reals, so the rule classifies it Categorical, yet `read_csv` types it
`bool` and the script gives it the numeric analysis while no chart class
accepts it. -/
theorem c1_counterexample :
    specClassify dateRaw = ColType.Datetime ∧
    classifyColumn dateColumn = ColType.Categorical ∧
    ColType.Datetime ≠ ColType.Categorical ∧
    specClassify boolColumn.raw = ColType.Categorical ∧
    boolColumn.dtype = inferDtype boolColumn.raw ∧
    is_numeric_dtype boolColumn.dtype = true ∧
    boolColumn ∉ selectCategorical ⟨[boolColumn], 2⟩ ∧
    boolColumn ∉ selectNumerical ⟨[boolColumn], 2⟩ ∧
    boolColumn ∉ date_cols ⟨[boolColumn], 2⟩ := by
  refine ⟨by decide, by decide, by decide, by decide, by decide, by decide, by decide,
    by decide, by decide⟩

/-- C1 (amended): for a CSV-loaded column, the dtype-derived
classification is total and mutually exclusive, but over {Numeric,
Categorical, Boolean} rather than the spec's three classes: the column is
Numeric iff it has at least one cell and every non-missing cell parses as
a real number; Boolean iff it is non-empty, every cell is a non-missing
True/False token, and it is not Numeric; Categorical otherwise.  The
Datetime label is never assigned, because `read_csv` never infers a
datetime dtype, and a Boolean column is treated asymmetrically: the
analysis dispatch counts it as numeric while no chart class accepts
it. -/
theorem c1_classification (c : Column) (h : c.dtype = inferDtype c.raw) :
    (classifyColumn c = ColType.Numeric ∨ classifyColumn c = ColType.Categorical ∨
      classifyColumn c = ColType.Boolean) ∧
    (classifyColumn c = ColType.Numeric ↔
      (c.raw ≠ [] ∧ ∀ s ∈ c.raw.filterMap id, (parseNumber s).isSome = true)) ∧
    (classifyColumn c = ColType.Boolean ↔
      (c.raw ≠ [] ∧ (∀ o ∈ c.raw, o.any isBoolToken = true) ∧
        ¬ ∀ s ∈ c.raw.filterMap id, (parseNumber s).isSome = true)) ∧
    classifyColumn c ≠ ColType.Datetime ∧
    (c.dtype = Dtype.bool → is_numeric_dtype c.dtype = true ∧
      ∀ t : Table, c ∉ selectNumerical t ∧ c ∉ selectCategorical t ∧ c ∉ date_cols t) := by
  have hcc : classifyColumn c = columnClass (inferDtype c.raw) := by
    unfold classifyColumn
    rw [h]
  have hmain : (columnClass (inferDtype c.raw) = ColType.Numeric ∨
      columnClass (inferDtype c.raw) = ColType.Categorical ∨
      columnClass (inferDtype c.raw) = ColType.Boolean) ∧
      (columnClass (inferDtype c.raw) = ColType.Numeric ↔
        (c.raw ≠ [] ∧ ∀ s ∈ c.raw.filterMap id, (parseNumber s).isSome = true)) ∧
      (columnClass (inferDtype c.raw) = ColType.Boolean ↔
        (c.raw ≠ [] ∧ (∀ o ∈ c.raw, o.any isBoolToken = true) ∧
          ¬ ∀ s ∈ c.raw.filterMap id, (parseNumber s).isSome = true)) ∧
      columnClass (inferDtype c.raw) ≠ ColType.Datetime := by
    unfold inferDtype
    split_ifs with h1 h2 h3
    · rw [List.isEmpty_iff] at h1
      refine ⟨Or.inr (Or.inl rfl), ⟨fun hh => absurd hh (by decide), ?_⟩,
        ⟨fun hh => absurd hh (by decide), ?_⟩, by decide⟩
      · rintro ⟨hne, _⟩
        exact absurd h1 hne
      · rintro ⟨hne, _, _⟩
        exact absurd h1 hne
    · rw [List.isEmpty_iff] at h1
      rw [List.all_eq_true] at h2
      refine ⟨Or.inl rfl, ⟨fun _ => ⟨h1, h2⟩, fun _ => rfl⟩,
        ⟨fun hh => absurd hh (by decide), ?_⟩, by decide⟩
      rintro ⟨_, _, hnn⟩
      exact absurd h2 hnn
    · rw [List.isEmpty_iff] at h1
      rw [List.all_eq_true] at h2 h3
      have hany : ∀ o ∈ c.raw, o.any isBoolToken = true := by
        intro o ho
        cases o with
        | none => exact h3 none ho
        | some sv => exact h3 (some sv) ho
      refine ⟨Or.inr (Or.inr rfl), ⟨fun hh => absurd hh (by decide), ?_⟩,
        ⟨fun _ => ⟨h1, hany, h2⟩, fun _ => rfl⟩, by decide⟩
      rintro ⟨_, hall⟩
      exact absurd hall h2
    · rw [List.isEmpty_iff] at h1
      rw [List.all_eq_true] at h2 h3
      refine ⟨Or.inr (Or.inl rfl), ⟨fun hh => absurd hh (by decide), ?_⟩,
        ⟨fun hh => absurd hh (by decide), ?_⟩, by decide⟩
      · rintro ⟨_, hall⟩
        exact absurd hall h2
      · rintro ⟨_, hex, _⟩
        refine absurd ?_ h3
        intro o ho
        cases o with
        | none => exact hex none ho
        | some sv => exact hex (some sv) ho
  rw [hcc]
  exact ⟨hmain.1, hmain.2.1, hmain.2.2.1, hmain.2.2.2,
    fun hb => bool_dtype_asymmetric c hb⟩

/-- Witness for C1 at the example numeric column and the bool column. -/
theorem c1_witness :
    (classifyColumn casesColumn = ColType.Numeric ∨
      classifyColumn casesColumn = ColType.Categorical ∨
      classifyColumn casesColumn = ColType.Boolean) ∧
    classifyColumn boolColumn = ColType.Boolean :=
  ⟨(c1_classification casesColumn (by decide)).1,
   (c1_classification boolColumn (by decide)).2.2.1.mpr
     ⟨by decide, by decide, by decide⟩⟩

/-- C5 counterexample: the script has no `EmptyColumnError`.  The numeric
analysis of an entirely missing numeric column succeeds with NaN
statistics and a zero-outlier report, and `detect_outliers` over zero
total rows raises `ZeroDivisionError`, not `EmptyColumnError`. -/
theorem c5_counterexample :
    analysis_col allMissingColumn 2 = .ok (.numeric ⟨none, none, none⟩ ⟨0, 0⟩) ∧
    detect_outliers [] 0 = .error .zeroDivision ∧
    AnalysisError.zeroDivision ≠ AnalysisError.emptyColumn := by
  refine ⟨?_, by simp [detect_outliers], by decide⟩
  norm_num [analysis_col, is_numeric_dtype, allMissingColumn, detect_outliers, colVals,
    outlierCount, outlierCountWith, quartiles, quantile, quantileSorted,
    List.insertionSort, summarizeNumeric, colMean, colMedian, colVar]

/-- C5 (amended): on a numeric-dtype column whose cells are all missing,
the analysis section does not fail: every statistic is NaN and the
outlier report is `(0, 0)`; dividing by zero total rows would raise
`ZeroDivisionError` (never `EmptyColumnError`, which the script does not
define). -/
theorem c5_all_missing (c : Column) (nrows : ℕ) (hdt : c.dtype = Dtype.number)
    (hmiss : ∀ x ∈ c.raw, x = none) (hpos : 0 < nrows) :
    analysis_col c nrows = .ok (.numeric ⟨none, none, none⟩ ⟨0, 0⟩) ∧
    detect_outliers (colVals c) 0 = .error .zeroDivision := by
  have hfm : (colVals c).filterMap id = [] := by
    rw [List.filterMap_eq_nil_iff]
    intro v hv
    simp only [colVals, List.mem_map] at hv
    obtain ⟨o, ho, rfl⟩ := hv
    rw [hmiss o ho]
    rfl
  have hq : quantile (colVals c) = fun p => none := by
    funext p
    rw [quantile, hfm]
    rfl
  have hcount : outlierCount (colVals c) = 0 := by
    unfold outlierCount outlierCountWith quartiles
    rw [hq]
  constructor
  · unfold analysis_col
    rw [hdt]
    simp only [is_numeric_dtype, if_true]
    unfold detect_outliers
    rw [if_neg (by omega), hcount]
    unfold summarizeNumeric colMean colMedian colVar
    rw [hfm, hq]
    simp
  · unfold detect_outliers
    simp

/-- Witness for C5 at the concrete all-missing column. -/
theorem c5_witness :
    analysis_col allMissingColumn 2 = .ok (.numeric ⟨none, none, none⟩ ⟨0, 0⟩) :=
  (c5_all_missing allMissingColumn 2 (by decide) (by decide) (by decide)).1

/-- C10: the per-column analysis dispatch is binary, on the code's own
`is_numeric_dtype` test: every column failing it — a datetime column
included — gets the categorical analysis (`value_counts` frequency table
plus pie chart), behaving exactly like an `object` column (a bool column
passes the test and gets the numeric analysis instead); the datetime
dtype is used only to decide which columns `date_cols` offers to the
time-series section. -/
theorem c10_binary_dispatch :
    (∀ (c : Column) (nrows : ℕ), is_numeric_dtype c.dtype = false →
      analysis_col c nrows = .ok (.categorical (value_counts (c.raw.filterMap id)))) ∧
    (∀ (c : Column) (nrows : ℕ),
      analysis_col { c with dtype := Dtype.datetime } nrows =
        analysis_col { c with dtype := Dtype.object } nrows) ∧
    (∀ t : Table, date_cols t = t.cols.filter (fun c => decide (c.dtype = Dtype.datetime))) := by
  refine ⟨?_, ?_, ?_⟩
  · intro c n h
    simp [analysis_col, h]
  · intro c n
    unfold analysis_col
    simp [is_numeric_dtype]
  · intro t
    unfold date_cols
    apply List.filter_congr
    intro c _
    cases hd : c.dtype <;> simp [hd]

/-- Witness for C10: a datetime-dtype column receives the categorical
analysis. -/
theorem c10_witness :
    analysis_col ⟨"date", dateRaw, Dtype.datetime⟩ 2 =
      .ok (.categorical (value_counts (dateRaw.filterMap id))) :=
  c10_binary_dispatch.1 ⟨"date", dateRaw, Dtype.datetime⟩ 2 (by decide)

end Disease

namespace Disease

lemma count_add_filter_ne (x : String) (xs : List String) :
    xs.count x + (xs.filter (fun y => y != x)).length = xs.length := by
  induction xs with
  | nil => simp
  | cons a t ih =>
    by_cases hax : a = x
    · subst hax
      rw [List.count_cons_self, List.filter_cons_of_neg (by simp)]
      simp only [List.length_cons]
      omega
    · rw [List.count_cons_of_ne (Ne.symm hax), List.filter_cons_of_pos (by simp [hax])]
      simp only [List.length_cons]
      omega

lemma mem_firstOccs (v : String) : ∀ (l : List String), v ∈ firstOccs l ↔ v ∈ l := by
  intro l
  induction l using firstOccs.induct with
  | case1 => rw [firstOccs]
  | case2 x xs ih =>
    rw [firstOccs]
    constructor
    · intro hv
      rcases List.mem_cons.mp hv with rfl | hv'
      · exact List.mem_cons_self _ _
      · exact List.mem_cons_of_mem _ (List.mem_filter.mp (ih.mp hv')).1
    · intro hv
      rcases List.mem_cons.mp hv with rfl | hv'
      · exact List.mem_cons_self _ _
      · by_cases hvx : v = x
        · subst hvx
          exact List.mem_cons_self _ _
        · exact List.mem_cons_of_mem _
            (ih.mpr (List.mem_filter.mpr ⟨hv', by simp [bne_iff_ne, hvx]⟩))

lemma firstOccs_sum_count : ∀ (l : List String),
    ((firstOccs l).map (fun v => l.count v)).sum = l.length := by
  intro l
  induction l using firstOccs.induct with
  | case1 => rw [firstOccs]; simp
  | case2 x xs ih =>
    rw [firstOccs, List.map_cons, List.sum_cons]
    have hmap : (firstOccs (xs.filter (fun y => y != x))).map (fun v => (x :: xs).count v) =
        (firstOccs (xs.filter (fun y => y != x))).map
          (fun v => (xs.filter (fun y => y != x)).count v) := by
      apply List.map_congr_left
      intro v hv
      have hvf := (mem_firstOccs v _).mp hv
      have hvne : v ≠ x := by
        have := (List.mem_filter.mp hvf).2
        simpa [bne_iff_ne] using this
      rw [List.count_cons_of_ne hvne]
      exact (List.count_filter (by simp [bne_iff_ne, hvne])).symm
    rw [hmap, ih, List.count_cons_self]
    have := count_add_filter_ne x xs
    simp only [List.length_cons]
    omega

lemma indexOf_filter_lt (p : String → Bool) :
    ∀ (l : List String) (v w : String), v ∈ l → w ∈ l → p v = true → p w = true →
      l.indexOf v < l.indexOf w → (l.filter p).indexOf v < (l.filter p).indexOf w := by
  intro l
  induction l with
  | nil => intro v w hv _ _ _ _; simp at hv
  | cons a t ih =>
    intro v w hv hw hpv hpw hlt
    by_cases hav : a = v
    · subst hav
      have hwa : w ≠ a := by
        rintro rfl
        rw [List.indexOf_cons_self] at hlt
        exact absurd hlt (Nat.not_lt_zero _)
      rw [List.filter_cons_of_pos hpv, List.indexOf_cons_self,
        List.indexOf_cons_ne _ (Ne.symm hwa)]
      exact Nat.succ_pos _
    · by_cases haw : a = w
      · subst haw
        rw [List.indexOf_cons_self] at hlt
        exact absurd hlt (Nat.not_lt_zero _)
      · have hv' : v ∈ t := by
          rcases List.mem_cons.mp hv with hva | h
          · exact absurd hva.symm hav
          · exact h
        have hw' : w ∈ t := by
          rcases List.mem_cons.mp hw with hwa | h
          · exact absurd hwa.symm haw
          · exact h
        rw [List.indexOf_cons_ne _ hav, List.indexOf_cons_ne _ haw] at hlt
        have hlt' : t.indexOf v < t.indexOf w := Nat.succ_lt_succ_iff.mp hlt
        by_cases hpa : p a
        · rw [List.filter_cons_of_pos hpa, List.indexOf_cons_ne _ hav,
            List.indexOf_cons_ne _ haw]
          exact Nat.succ_lt_succ (ih v w hv' hw' hpv hpw hlt')
        · rw [List.filter_cons_of_neg hpa]
          exact ih v w hv' hw' hpv hpw hlt'

lemma firstOccs_pair_sublist :
    ∀ (l : List String) (v w : String), v ∈ l → w ∈ l →
      l.indexOf v < l.indexOf w → List.Sublist [v, w] (firstOccs l) := by
  intro l
  induction l using firstOccs.induct with
  | case1 => intro v w hv _ _; simp at hv
  | case2 x xs ih =>
    intro v w hv hw hlt
    rw [firstOccs]
    by_cases hxv : v = x
    · have hwv : w ≠ v := by
        rintro rfl
        exact absurd hlt (lt_irrefl _)
      have hw' : w ∈ xs := by
        rcases List.mem_cons.mp hw with hwx | h
        · rw [← hxv] at hwx
          exact absurd hwx hwv
        · exact h
      rw [hxv]
      apply List.Sublist.cons₂
      rw [List.singleton_sublist]
      refine (mem_firstOccs w _).mpr (List.mem_filter.mpr ⟨hw', ?_⟩)
      have hwx : w ≠ x := by rw [← hxv]; exact hwv
      simp [bne_iff_ne, hwx]
    · by_cases hxw : w = x
      · rw [hxw, List.indexOf_cons_self] at hlt
        exact absurd hlt (Nat.not_lt_zero _)
      · have hv' : v ∈ xs := by
          rcases List.mem_cons.mp hv with hva | h
          · exact absurd hva hxv
          · exact h
        have hw' : w ∈ xs := by
          rcases List.mem_cons.mp hw with hwa | h
          · exact absurd hwa hxw
          · exact h
        rw [List.indexOf_cons_ne _ (fun hh => hxv hh.symm),
          List.indexOf_cons_ne _ (fun hh => hxw hh.symm)] at hlt
        have hlt' := Nat.succ_lt_succ_iff.mp hlt
        have hltf := indexOf_filter_lt (fun y => y != x) xs v w hv' hw'
          (by simp [bne_iff_ne, hxv]) (by simp [bne_iff_ne, hxw]) hlt'
        exact List.Sublist.cons x (ih v w
          (List.mem_filter.mpr ⟨hv', by simp [bne_iff_ne, hxv]⟩)
          (List.mem_filter.mpr ⟨hw', by simp [bne_iff_ne, hxw]⟩) hltf)

/-- C3: for every column, the categorical analysis frequency table has one
entry per distinct non-missing value carrying its count, its counts sum to
the number of non-missing rows, it is ordered by descending count, and
entries with equal counts appear in first-occurrence order of the source
column. -/
theorem c3_value_counts (c : Column) :
    (((value_counts (c.raw.filterMap id)).map Prod.snd).sum = (c.raw.filterMap id).length) ∧
    ((value_counts (c.raw.filterMap id)).Pairwise (fun a b => b.2 ≤ a.2)) ∧
    (∀ v k, (v, k) ∈ value_counts (c.raw.filterMap id) ↔
      (v ∈ c.raw.filterMap id ∧ k = (c.raw.filterMap id).count v)) ∧
    (∀ v w, v ∈ c.raw.filterMap id → w ∈ c.raw.filterMap id →
      (c.raw.filterMap id).count v = (c.raw.filterMap id).count w →
      (c.raw.filterMap id).indexOf v < (c.raw.filterMap id).indexOf w →
      List.Sublist
        [(v, (c.raw.filterMap id).count v), (w, (c.raw.filterMap id).count w)]
        (value_counts (c.raw.filterMap id))) := by
  set xs := c.raw.filterMap id with hxs
  refine ⟨?_, ?_, ?_, ?_⟩
  · have hperm := List.perm_insertionSort countOrder
      ((firstOccs xs).map (fun v => (v, xs.count v)))
    calc ((value_counts xs).map Prod.snd).sum
        = ((((firstOccs xs).map (fun v => (v, xs.count v))).map Prod.snd)).sum :=
          (hperm.map Prod.snd).sum_eq
      _ = ((firstOccs xs).map (fun v => xs.count v)).sum := by
          rw [List.map_map]
          exact congrArg List.sum (List.map_congr_left (fun a _ => rfl))
      _ = xs.length := firstOccs_sum_count xs
  · exact (List.sorted_insertionSort countOrder _).imp (fun h => h)
  · intro v k
    unfold value_counts
    rw [List.Perm.mem_iff (List.perm_insertionSort _ _), List.mem_map]
    constructor
    · rintro ⟨u, hu, heq⟩
      have h1 : u = v := congrArg Prod.fst heq
      have h2 : xs.count u = k := congrArg Prod.snd heq
      subst h1
      exact ⟨(mem_firstOccs u xs).mp hu, h2.symm⟩
    · rintro ⟨hvmem, rfl⟩
      exact ⟨v, (mem_firstOccs v xs).mpr hvmem, rfl⟩
  · intro v w hv hw hcnt hlt
    unfold value_counts
    apply List.sublist_insertionSort
    · simp [List.pairwise_cons, countOrder, hcnt]
    · have hsub : List.Sublist [v, w] (firstOccs xs) := firstOccs_pair_sublist xs v w hv hw hlt
      have hmap := List.Sublist.map (fun u => (u, xs.count u)) hsub
      simpa using hmap

/-- Witness for C3 at the example column `region = [A,A,B,C,A]`: the
frequency table is exactly A:3, B:1, C:1 in that order, and the tied
entries B and C appear in first-occurrence order. -/
theorem c3_witness :
    value_counts (regionColumn.raw.filterMap id) = [("A", 3), ("B", 1), ("C", 1)] ∧
    List.Sublist
      [("B", (regionColumn.raw.filterMap id).count "B"),
       ("C", (regionColumn.raw.filterMap id).count "C")]
      (value_counts (regionColumn.raw.filterMap id)) := by
  constructor
  · simp [regionColumn, value_counts, firstOccs, countOrder, List.insertionSort,
      List.orderedInsert, List.count_cons, List.count_nil]
  · exact (c3_value_counts regionColumn).2.2.2 "B" "C" (by decide) (by decide)
      (by decide) (by decide)

end Disease

namespace Disease

lemma pairedVals_swap : ∀ (x y : List (Option ℚ)),
    pairedVals y x = (pairedVals x y).map Prod.swap := by
  intro x
  induction x with
  | nil => intro y; cases y <;> simp [pairedVals]
  | cons a xs ih =>
    intro y
    cases y with
    | nil => simp [pairedVals]
    | cons b ys =>
      simp only [pairedVals, List.zip_cons_cons, List.filterMap_cons]
      cases a <;> cases b <;>
        simpa [pairedVals] using ih ys

lemma corrRep_symm (x y : List (Option ℚ)) : corrRep y x = corrRep x y := by
  unfold corrRep
  rw [pairedVals_swap x y]
  simp only [List.length_map, List.map_map]
  have h1 : ((Prod.fst ∘ Prod.swap) : ℚ × ℚ → ℚ) = Prod.snd := rfl
  have h2 : ((Prod.snd ∘ Prod.swap) : ℚ × ℚ → ℚ) = Prod.fst := rfl
  rw [h1, h2]
  set ps := pairedVals x y
  set ma := (ps.map Prod.fst).sum / (ps.length : ℚ)
  set mb := (ps.map Prod.snd).sum / (ps.length : ℚ)
  have hnum : ps.map ((fun p => (p.1 - mb) * (p.2 - ma)) ∘ Prod.swap) =
      ps.map (fun p => (p.1 - ma) * (p.2 - mb)) :=
    List.map_congr_left (fun p _ => mul_comm _ _)
  have hs1 : ps.map ((fun p => (p.1 - mb) ^ 2) ∘ Prod.swap) =
      ps.map (fun p => (p.2 - mb) ^ 2) :=
    List.map_congr_left (fun p _ => rfl)
  have hs2 : ps.map ((fun p => (p.2 - ma) ^ 2) ∘ Prod.swap) =
      ps.map (fun p => (p.1 - ma) ^ 2) :=
    List.map_congr_left (fun p _ => rfl)
  rw [hnum, hs1, hs2]
  exact Prod.mk.injEq _ _ _ _ ▸ ⟨rfl, mul_comm _ _⟩

/-- C6: the heatmap request fails with the insufficient-columns message
when the table has fewer than 2 numeric columns; with at least 2 it charts
all numeric columns, and the Pearson correlation entries it renders form a
symmetric matrix. -/
theorem c6_heatmap (t : Table) :
    ((selectNumerical t).length < 2 →
      create_visualization .heatmap t = .errorMessage .insufficientColumns) ∧
    (2 ≤ (selectNumerical t).length →
      create_visualization .heatmap t = .chart .heatmap (selectNumerical t) ∧
      ∀ a ∈ selectNumerical t, ∀ b ∈ selectNumerical t,
        corrRep (colVals a) (colVals b) = corrRep (colVals b) (colVals a)) := by
  constructor
  · intro h
    simp [create_visualization, h]
  · intro h
    refine ⟨?_, fun a _ b _ => corrRep_symm (colVals b) (colVals a)⟩
    simp only [create_visualization]
    rw [if_neg (by omega)]

/-- Witness for C6: on the two-numeric-column table the heatmap charts
both columns and the off-diagonal correlation entries agree. -/
theorem c6_witness :
    create_visualization .heatmap twoNumTable = .chart .heatmap (selectNumerical twoNumTable) ∧
    corrRep (colVals casesColumn) (colVals weekColumn) =
      corrRep (colVals weekColumn) (colVals casesColumn) :=
  ⟨((c6_heatmap twoNumTable).2 (by decide)).1,
   ((c6_heatmap twoNumTable).2 (by decide)).2 casesColumn (by decide) weekColumn (by decide)⟩

/-- C7 counterexample: for the Heatmap kind, an empty eligible list does
not surface the no-eligible-columns error: on a table with no numeric
column the heatmap branch emits its insufficient-columns warning
instead. -/
theorem c7_counterexample :
    optionCols .heatmap oneCatTable = [] ∧
    create_visualization .heatmap oneCatTable = .errorMessage .insufficientColumns ∧
    VizError.insufficientColumns ≠ VizError.noEligibleColumns := by
  refine ⟨by decide, by decide, by decide⟩

/-- C7 (amended): for every chart kind the offered columns are exactly
those whose classified type matches the kind's required type class; for
every kind except Heatmap an empty eligible list surfaces the
no-eligible-columns error rather than a fatal failure (Heatmap surfaces
its insufficient-columns warning); in particular Scatter on a table whose
only column is categorical yields the no-eligible-columns error. -/
theorem c7_select (g : GraphType) (t : Table) :
    optionCols g t = t.cols.filter (fun c => decide (classifyColumn c = specRequiredType g)) ∧
    (g ≠ .heatmap → optionCols g t = [] →
      create_visualization g t = .errorMessage .noEligibleColumns) ∧
    create_visualization .scatter oneCatTable = .errorMessage .noEligibleColumns := by
  refine ⟨?_, ?_, by decide⟩
  · cases g <;>
      · simp only [optionCols, selectCategorical, selectNumerical, specRequiredType]
        apply List.filter_congr
        intro c _
        cases hc : c.dtype <;> simp [classifyColumn, columnClass, hc]
  · intro hg hempty
    cases g <;> simp_all [create_visualization, selectChartColumns]

/-- Witness for C7: a Bar chart on a table with no categorical column
surfaces the no-eligible-columns error. -/
theorem c7_witness :
    create_visualization .bar twoNumTable = .errorMessage .noEligibleColumns :=
  (c7_select .bar twoNumTable).2.1 (by decide) (by decide)

/-- C8: for every CSV-loaded table and every selection, a full pass of the
script completes without an uncaught error: visualization failures are
converted to messages inside `create_visualization`, the analysis section
cannot divide by zero (a numeric dtype implies at least one row), and the
time-series section is skipped because CSV loading never produces a
datetime column. -/
theorem c8_no_crash (t : Table) (g : GraphType) (colIdx : ℕ) (h : loadedFromCsv t) :
    ∃ out, runSession t g colIdx = .ok out := by
  obtain ⟨hwf, hdt⟩ := h
  have hana : ∃ a, analysis_col (t.cols.getD colIdx ⟨"", [], .object⟩) t.nrows = .ok a := by
    by_cases hlt : colIdx < t.cols.length
    · have hmem : t.cols.getD colIdx ⟨"", [], .object⟩ ∈ t.cols := by
        rw [List.getD_eq_getElem _ _ hlt]
        exact List.getElem_mem hlt
      set c := t.cols.getD colIdx ⟨"", [], .object⟩ with hc
      have hdtc := hdt c hmem
      by_cases hnum : is_numeric_dtype c.dtype
      · have hrawne : ¬ c.raw.isEmpty := by
          intro hemp
          rw [hdtc] at hnum
          unfold inferDtype at hnum
          rw [if_pos hemp] at hnum
          simp [is_numeric_dtype] at hnum
        have hnr : t.nrows ≠ 0 := by
          intro h0
          have hlen := hwf c hmem
          rw [h0] at hlen
          rw [List.isEmpty_iff] at hrawne
          exact hrawne (List.length_eq_zero.mp hlen)
        refine ⟨.numeric (summarizeNumeric (colVals c)) ⟨outlierCount (colVals c),
          (outlierCount (colVals c) : ℚ) / (t.nrows : ℚ)⟩, ?_⟩
        unfold analysis_col
        rw [if_pos hnum]
        unfold detect_outliers
        rw [if_neg hnr]
      · refine ⟨.categorical (value_counts (c.raw.filterMap id)), ?_⟩
        unfold analysis_col
        rw [if_neg hnum]
    · have hdef : t.cols.getD colIdx ⟨"", [], .object⟩ = ⟨"", [], .object⟩ :=
        List.getD_eq_default _ _ (by omega)
      rw [hdef]
      exact ⟨.categorical (value_counts (([] : List (Option String)).filterMap id)), rfl⟩
  have hres : resampleSection t = .ok () := by
    unfold resampleSection
    have hdate : date_cols t = [] := by
      unfold date_cols
      rw [List.filter_eq_nil_iff]
      intro c hm
      have := hdt c hm
      have hne := inferDtype_ne_datetime c.raw
      rw [← this] at hne
      cases hd : c.dtype <;> simp_all
    rw [hdate]
    rfl
  obtain ⟨a, ha⟩ := hana
  refine ⟨(create_visualization g t, a), ?_⟩
  unfold runSession
  rw [ha, hres]

/-- Witness for C8 on the concrete two-column CSV table. -/
theorem c8_witness : ∃ out, runSession twoNumTable .scatter 0 = .ok out :=
  c8_no_crash twoNumTable .scatter 0 (by decide)

end Disease
